import Mathlib

/-!
# Verification of `detectlight.py`

A shallow embedding of the frame-statistic extraction pipeline of
`src/detectlight.py`:

* `identify_files` — discovery of `.mp4` files via `pathlib.Path.glob`;
* `get_frame_values` — the per-file / per-frame loop computing
  `np.percentile(frame, percentile_value)` for every decoded frame;
* the CSV-writing part of `plot_frame_values`.

Machine floats are modelled by exact rationals (`ℚ`); Python exceptions by
`Except PyError`.  The behaviour of the external collaborators
(`pathlib.Path.glob`, `imageio`, `numpy`) is embedded at the call boundary:
the filesystem is an explicit snapshot, and each video file carries the
outcome the decoder produces for it.
-/

namespace DetectLight

/-- Runtime errors (Python exceptions) the script can raise.
`valueError` models numpy rejecting a percentile outside `[0, 100]`;
`emptyFrame` models numpy's `IndexError` on a percentile of an empty array
(the spec's `EmptyFrameError`); `decodeOpen` models `imageio.get_reader`
failing to open a file (the spec's `DecodeOpenError`); `decodeFrame` models
`iter_data` failing partway through a file (the spec's `DecodeFrameError`);
`assertionError` models a failed `assert`; `pathError` is the spec's
`PathError` (the source never raises it). -/
inductive PyError where
  | valueError : PyError
  | emptyFrame : PyError
  | decodeOpen (fname : String) : PyError
  | decodeFrame (fname : String) : PyError
  | assertionError (msg : String) : PyError
  | pathError : PyError
deriving DecidableEq

/-- `np.percentile(frame, q)` with the default (linear-interpolation)
method, on the frame flattened to its list of samples.  numpy validates
`q ∈ [0, 100]` first (`ValueError`), then fails on an empty sample list
(`IndexError: cannot do a non-empty take from an empty axes`); otherwise it
sorts the samples and linearly interpolates at the virtual index
`q * (n - 1) / 100` between the two nearest order statistics. -/
def npPercentile (samples : List ℚ) (q : ℚ) : Except PyError ℚ :=
  if q < 0 ∨ 100 < q then .error .valueError
  else if samples.isEmpty then .error .emptyFrame
  else
    let sorted := samples.insertionSort (· ≤ ·)
    let vi : ℚ := q * ((sorted.length : ℚ) - 1) / 100
    let lo : ℕ := (⌊vi⌋).toNat
    let hi : ℕ := (⌈vi⌉).toNat
    let below := sorted.getD lo 0
    let above := sorted.getD hi 0
    .ok (below + (vi - (⌊vi⌋ : ℚ)) * (above - below))

/-- One input video file together with the behaviour of the external
decoder on it: whether `imageio.get_reader` succeeds, the frames
`iter_data` yields (each flattened to its list of pixel samples), and
whether `iter_data` raises a decode error after the yielded frames. -/
structure VideoFile where
  fname : String
  openOk : Bool
  frames : List (List ℚ)
  midFail : Bool
deriving DecidableEq

/-- The dictionary `get_frame_values` builds per file:
`{"fname": fname, "values": temp_video_data, "percentile": percentile_value}`. -/
structure VideoDict where
  fname : String
  values : List ℚ
  percentile : ℤ
deriving DecidableEq

/-- The runtime type of the `video_files` argument:
`type(video_files) == list` distinguishes an actual Python `list` from any
other iterable of file paths, such as a tuple or a generator. -/
inductive PyArg where
  | list (xs : List VideoFile) : PyArg
  | tuple (xs : List VideoFile) : PyArg
  | generator (xs : List VideoFile) : PyArg
deriving DecidableEq

/-- The inner loop of `get_frame_values`: for each frame yielded by
`vid.iter_data()`, append `np.percentile(frame, percentile_value)` to
`temp_video_data`.  Any exception propagates (the source has no
`try`/`except`). -/
def frameLoop (frames : List (List ℚ)) (percentile_value : ℤ) :
    Except PyError (List ℚ) :=
  match frames with
  | [] => .ok []
  | frame :: rest =>
    match npPercentile frame (percentile_value : ℚ) with
    | .error e => .error e
    | .ok v =>
      match frameLoop rest percentile_value with
      | .error e => .error e
      | .ok vs => .ok (v :: vs)

/-- The body of the outer loop of `get_frame_values` for one file:
`imageio.get_reader(fname, 'ffmpeg')` (raises if the file cannot be
opened), then the frame loop, then the mid-stream decode failure of
`iter_data` if any, and finally the result dictionary. -/
def processVideo (f : VideoFile) (percentile_value : ℤ) :
    Except PyError VideoDict :=
  if f.openOk then
    match frameLoop f.frames percentile_value with
    | .error e => .error e
    | .ok vals =>
      if f.midFail then .error (.decodeFrame f.fname)
      else .ok { fname := f.fname, values := vals, percentile := percentile_value }
  else .error (.decodeOpen f.fname)

/-- The outer loop of `get_frame_values` over `video_files`: one result
dictionary appended per file, in order; any exception propagates and
aborts the whole call (the source has no `try`/`except`). -/
def videoLoop (files : List VideoFile) (percentile_value : ℤ) :
    Except PyError (List VideoDict) :=
  match files with
  | [] => .ok []
  | f :: rest =>
    match processVideo f percentile_value with
    | .error e => .error e
    | .ok d =>
      match videoLoop rest percentile_value with
      | .error e => .error e
      | .ok ds => .ok (d :: ds)

/-- `get_frame_values(video_files, percentile_value)`: first
`assert type(video_files) == list`, then the loop over the files. -/
def get_frame_values (video_files : PyArg) (percentile_value : ℤ) :
    Except PyError (List VideoDict) :=
  match video_files with
  | .list files => videoLoop files percentile_value
  | _ => .error (.assertionError "video_files is not a list")

/-- A snapshot of the filesystem as `pathlib.Path.glob` observes it: which
paths are directories, and the directory entries (names, in scandir order)
of each directory. -/
structure FileSystem where
  isDir : String → Bool
  entries : String → List String

/-- `path.glob('*.mp4')`: `pathlib`'s selector checks `is_dir` first and
returns an empty iterator (it never raises) when `path` is not an existing
directory; otherwise it yields the entries whose name matches `*.mp4`
(i.e. ends in `.mp4`), joined to the directory path. -/
def glob_mp4 (fs : FileSystem) (path : String) : List String :=
  if fs.isDir path then
    ((fs.entries path).filter (fun n => n.endsWith ".mp4")).map
      (fun n => path ++ "/" ++ n)
  else []

/-- `identify_files(path)`: the list produced by `path.glob('*.mp4')`
together with its length. -/
def identify_files (fs : FileSystem) (path : String) : List String × ℕ :=
  let video_files := glob_mp4 fs path
  (video_files, video_files.length)

/-- Modelled from the spec: §4.1 FileDiscovery, "Input must be an existing
directory; if it does not exist or is not a directory, fails with
`PathError`."  The source's `identify_files` is compared against this. -/
def identify_files_spec (fs : FileSystem) (path : String) :
    Except PyError (List String) :=
  if fs.isDir path then .ok (glob_mp4 fs path) else .error .pathError

/-- The `.csv` file written by `plot_frame_values` for one video
dictionary: its name and its rows (each row a list of cells). -/
structure CsvFile where
  name : String
  rows : List (List ℚ)
deriving DecidableEq

/-- The CSV-writing part of `plot_frame_values` for one dictionary:
`open(f'{fname}_{percentile}.csv', 'w')` and one `writer.writerow([value])`
per value, in series order — no header row. -/
def write_csv (d : VideoDict) : CsvFile :=
  { name := d.fname ++ "_" ++ toString d.percentile ++ ".csv"
    rows := d.values.map (fun v => [v]) }

/-- The CSV side of `plot_frame_values` over the whole batch: one file per
video dictionary (the plot rendering is an external sink and carries no
data beyond the same values). -/
def plot_frame_values_csv (video_data : List VideoDict) : List CsvFile :=
  video_data.map write_csv

/-- Modelled from the spec: §8 "Round trip: writing a FrameSeries to the
tabular sink and reading it back (external format) yields a sequence equal
to the original `values`" — the reader (not part of the source) returns
one value per row, in row order: the first cell of each row. -/
def read_csv_values (file : CsvFile) : List ℚ :=
  file.rows.map (fun row => row.headD 0)

deriving instance DecidableEq for Except

/-! ## Helper lemmas -/

theorem frameLoop_ok (frames : List (List ℚ)) (p : ℤ) (vs : List ℚ)
    (h : frameLoop frames p = .ok vs) :
    vs.length = frames.length ∧
      ∀ j v, vs.get? j = some v →
        ∃ frame, frames.get? j = some frame ∧ npPercentile frame (p : ℚ) = .ok v := by
  induction frames generalizing vs with
  | nil =>
    simp only [frameLoop] at h
    cases h
    exact ⟨rfl, by intro j v hj; cases j <;> cases hj⟩
  | cons frame rest ih =>
    simp only [frameLoop] at h
    cases hv : npPercentile frame (p : ℚ) with
    | error e => rw [hv] at h; cases h
    | ok v =>
      rw [hv] at h
      cases hvs : frameLoop rest p with
      | error e => rw [hvs] at h; cases h
      | ok ws =>
        rw [hvs] at h
        cases h
        obtain ⟨hlen, hget⟩ := ih ws hvs
        refine ⟨by simp [hlen], ?_⟩
        intro j w hj
        cases j with
        | zero =>
          refine ⟨frame, rfl, ?_⟩
          cases hj
          exact hv
        | succ j => exact hget j w hj

theorem videoLoop_ok (files : List VideoFile) (p : ℤ) (r : List VideoDict)
    (h : videoLoop files p = .ok r) :
    r.length = files.length ∧
      ∀ i d, r.get? i = some d →
        ∃ f, files.get? i = some f ∧ processVideo f p = .ok d := by
  induction files generalizing r with
  | nil =>
    simp only [videoLoop] at h
    cases h
    exact ⟨rfl, by intro i d hi; cases i <;> cases hi⟩
  | cons f rest ih =>
    simp only [videoLoop] at h
    cases hd : processVideo f p with
    | error e => rw [hd] at h; cases h
    | ok d =>
      rw [hd] at h
      cases hds : videoLoop rest p with
      | error e => rw [hds] at h; cases h
      | ok ds =>
        rw [hds] at h
        cases h
        obtain ⟨hlen, hget⟩ := ih ds hds
        refine ⟨by simp [hlen], ?_⟩
        intro i d' hi
        cases i with
        | zero =>
          refine ⟨f, rfl, ?_⟩
          cases hi
          exact hd
        | succ i => exact hget i d' hi

theorem processVideo_ok (f : VideoFile) (p : ℤ) (d : VideoDict)
    (h : processVideo f p = .ok d) :
    d.fname = f.fname ∧ d.percentile = p ∧ frameLoop f.frames p = .ok d.values := by
  unfold processVideo at h
  split at h
  · cases hv : frameLoop f.frames p with
    | error e => rw [hv] at h; cases h
    | ok vals =>
      rw [hv] at h
      rcases Bool.eq_false_or_eq_true f.midFail with hm | hm
      · rw [hm] at h
        cases h
      · rw [hm] at h
        cases h
        exact ⟨rfl, rfl, rfl⟩
  · cases h

theorem map_headD_map_singleton (l : List ℚ) :
    List.map (fun row => List.headD row 0) (List.map (fun v => [v]) l) = l := by
  induction l with
  | nil => rfl
  | cons v vs ih => simpa using ih

theorem npPercentile_mem_bounds (samples : List ℚ) (q : ℚ) (r : ℚ)
    (hr : npPercentile samples q = .ok r) :
    ∃ a ∈ samples, ∃ b ∈ samples, a ≤ r ∧ r ≤ b := by
  simp only [npPercentile] at hr
  split at hr
  · cases hr
  · split at hr
    · cases hr
    · rename_i hq hne
      have hne' : samples ≠ [] := by
        intro h0
        rw [h0] at hne
        exact hne rfl
      push_neg at hq
      obtain ⟨hq0, hq1⟩ := hq
      cases hr
      set sorted := samples.insertionSort (· ≤ ·) with hs
      set n := sorted.length with hn
      set vi : ℚ := q * ((n : ℚ) - 1) / 100 with hvi
      have hnpos : 0 < n := by
        rw [hn, hs, List.length_insertionSort]
        exact List.length_pos.mpr hne'
      have hn1 : (0 : ℚ) ≤ (n : ℚ) - 1 := by
        have h1 : (1 : ℚ) ≤ (n : ℚ) := by exact_mod_cast hnpos
        linarith
      have hvi0 : 0 ≤ vi := by
        rw [hvi]
        exact div_nonneg (mul_nonneg hq0 hn1) (by norm_num)
      have hvin : vi ≤ (n : ℚ) - 1 := by
        rw [hvi, div_le_iff₀ (by norm_num : (0 : ℚ) < 100)]
        nlinarith
      have hfl0 : 0 ≤ ⌊vi⌋ := Int.floor_nonneg.mpr hvi0
      have hcl : ⌈vi⌉ ≤ (n : ℤ) - 1 := by
        rw [Int.ceil_le]
        push_cast
        exact hvin
      have hflcl : ⌊vi⌋ ≤ ⌈vi⌉ := Int.floor_le_ceil vi
      have hlo_lt : ⌊vi⌋.toNat < n := by omega
      have hhi_lt : ⌈vi⌉.toNat < n := by omega
      have hlohi : ⌊vi⌋.toNat ≤ ⌈vi⌉.toNat := by omega
      have hgetlo : sorted.getD ⌊vi⌋.toNat 0 = sorted.get ⟨⌊vi⌋.toNat, hlo_lt⟩ := by
        rw [List.getD_eq_getElem?_getD, List.getElem?_eq_getElem hlo_lt]
        rfl
      have hgethi : sorted.getD ⌈vi⌉.toNat 0 = sorted.get ⟨⌈vi⌉.toNat, hhi_lt⟩ := by
        rw [List.getD_eq_getElem?_getD, List.getElem?_eq_getElem hhi_lt]
        rfl
      have hmemlo : sorted.get ⟨⌊vi⌋.toNat, hlo_lt⟩ ∈ samples := by
        rw [← List.mem_insertionSort (· ≤ ·) (l := samples)]
        exact List.get_mem _ _ _
      have hmemhi : sorted.get ⟨⌈vi⌉.toNat, hhi_lt⟩ ∈ samples := by
        rw [← List.mem_insertionSort (· ≤ ·) (l := samples)]
        exact List.get_mem _ _ _
      have hsorted : List.Sorted (· ≤ ·) sorted := List.sorted_insertionSort _ _
      have hba : sorted.get ⟨⌊vi⌋.toNat, hlo_lt⟩ ≤ sorted.get ⟨⌈vi⌉.toNat, hhi_lt⟩ :=
        hsorted.rel_get_of_le hlohi
      have hfr0 : 0 ≤ vi - (⌊vi⌋ : ℚ) := sub_nonneg.mpr (Int.floor_le vi)
      have hfr1 : vi - (⌊vi⌋ : ℚ) ≤ 1 := by
        have hlt := Int.lt_floor_add_one vi
        linarith
      rw [hgetlo, hgethi]
      refine ⟨sorted.get ⟨⌊vi⌋.toNat, hlo_lt⟩, hmemlo,
        sorted.get ⟨⌈vi⌉.toNat, hhi_lt⟩, hmemhi, ?_, ?_⟩
      · nlinarith [mul_nonneg hfr0 (sub_nonneg.mpr hba)]
      · nlinarith [mul_le_mul_of_nonneg_right hfr1 (sub_nonneg.mpr hba)]

theorem videoLoop_error_of_mem (files : List VideoFile) (p : ℤ) (f : VideoFile)
    (e : PyError) (hf : f ∈ files) (he : processVideo f p = .error e) :
    ∃ e', videoLoop files p = .error e' := by
  induction files with
  | nil => cases hf
  | cons g rest ih =>
    simp only [videoLoop]
    cases hg : processVideo g p with
    | error e'' => exact ⟨e'', rfl⟩
    | ok d =>
      rcases List.mem_cons.mp hf with rfl | hmem
      · rw [he] at hg; cases hg
      · obtain ⟨e', h'⟩ := ih hmem
        rw [h']
        exact ⟨e', rfl⟩

/-! ## Claims -/

unseal Rat.add Rat.mul Rat.sub Rat.inv in
/-- C1, counterexample: processing the batch `[good1, corrupt, good2]`,
where `corrupt` cannot be opened, does not yield a batch result with a
failure marker in `corrupt`'s slot and full series for the other two
files: `get_frame_values` raises, and the whole call returns the
decode-open error instead of any batch result. -/
theorem get_frame_values_no_failure_marker :
    get_frame_values
        (.list [⟨"good1.mp4", true, [[0, 10]], false⟩,
          ⟨"corrupt.mp4", false, [], false⟩,
          ⟨"good2.mp4", true, [[3]], false⟩]) 95 =
      .error (.decodeOpen "corrupt.mp4") := by
  decide

/-- C1, amended (the claim as stated fails on the code, see
`get_frame_values_no_failure_marker`): if processing one discovered file
fails, the exception propagates out of `get_frame_values` — the whole call
fails, no batch result is produced, and no failure marker or series for
any other file is recorded. -/
theorem get_frame_values_failure_aborts (files : List VideoFile) (p : ℤ)
    (f : VideoFile) (e : PyError) (hf : f ∈ files)
    (he : processVideo f p = .error e) :
    ∃ e', get_frame_values (.list files) p = .error e' :=
  videoLoop_error_of_mem files p f e hf he

unseal Rat.add Rat.mul Rat.sub Rat.inv in
theorem get_frame_values_failure_aborts_witness :
    (⟨"corrupt.mp4", false, [], false⟩ : VideoFile) ∈
        [⟨"good1.mp4", true, [[0, 10]], false⟩,
          ⟨"corrupt.mp4", false, [], false⟩,
          ⟨"good2.mp4", true, [[3]], false⟩] ∧
      processVideo ⟨"corrupt.mp4", false, [], false⟩ 95 =
        .error (.decodeOpen "corrupt.mp4") ∧
      ∃ e', get_frame_values
          (.list [⟨"good1.mp4", true, [[0, 10]], false⟩,
            ⟨"corrupt.mp4", false, [], false⟩,
            ⟨"good2.mp4", true, [[3]], false⟩]) 95 = .error e' :=
  ⟨by decide, by decide,
    get_frame_values_failure_aborts
      [⟨"good1.mp4", true, [[0, 10]], false⟩,
        ⟨"corrupt.mp4", false, [], false⟩,
        ⟨"good2.mp4", true, [[3]], false⟩] 95
      ⟨"corrupt.mp4", false, [], false⟩ (.decodeOpen "corrupt.mp4")
      (by decide) (by decide)⟩

/-- C2, counterexample: on a filesystem where `"/missing"` does not exist
(so is not a directory), `identify_files` returns the normal result
`([], 0)` — it does not fail at all — whereas the spec-modelled discovery
`identify_files_spec` fails with `PathError`. -/
theorem identify_files_no_path_error :
    identify_files ⟨fun _ => false, fun _ => []⟩ "/missing" = ([], 0) ∧
      identify_files_spec ⟨fun _ => false, fun _ => []⟩ "/missing" =
        .error .pathError :=
  ⟨rfl, rfl⟩

/-- C2, amended (the claim as stated fails on the code, see
`identify_files_no_path_error`): discovery never fails: for an input path
that does not exist or is not a directory it returns the empty list with
count `0` — a normal result, not a `PathError` — exactly as it does for an
existing directory containing no `.mp4` entries. -/
theorem identify_files_bad_path_empty (fs : FileSystem) (path : String) :
    (fs.isDir path = false → identify_files fs path = ([], 0)) ∧
      (fs.isDir path = true →
        (∀ n ∈ fs.entries path, n.endsWith ".mp4" = false) →
        identify_files fs path = ([], 0)) := by
  constructor
  · intro hbad
    simp [identify_files, glob_mp4, hbad]
  · intro hdir hnone
    have hfilter : (fs.entries path).filter (fun n => n.endsWith ".mp4") = [] :=
      List.filter_eq_nil_iff.mpr (by intro a ha; simp [hnone a ha])
    simp [identify_files, glob_mp4, hdir, hfilter]

theorem identify_files_bad_path_empty_witness :
    (⟨fun p => p == "/videos", fun _ => []⟩ : FileSystem).isDir
        "/missing" = false ∧
      identify_files ⟨fun p => p == "/videos", fun _ => []⟩
        "/missing" = ([], 0) ∧
      (⟨fun p => p == "/videos", fun _ => []⟩ : FileSystem).isDir
        "/videos" = true ∧
      (∀ n ∈ ([] : List String), n.endsWith ".mp4" = false) ∧
      identify_files ⟨fun p => p == "/videos", fun _ => []⟩
        "/videos" = ([], 0) :=
  ⟨rfl,
    (identify_files_bad_path_empty
      ⟨fun p => p == "/videos", fun _ => []⟩ "/missing").1 rfl,
    rfl, by simp,
    (identify_files_bad_path_empty
      ⟨fun p => p == "/videos", fun _ => []⟩ "/videos").2 rfl
      (by simp)⟩

/-- C3 (confirmed): for every valid percentile, reducing a frame that
contains no samples fails with the empty-frame error (numpy's
`IndexError`, the spec's `EmptyFrameError`). -/
theorem npPercentile_empty_frame (q : ℚ) (h0 : 0 ≤ q) (h1 : q ≤ 100) :
    npPercentile [] q = .error .emptyFrame := by
  have hq : ¬(q < 0 ∨ 100 < q) := by
    push_neg
    exact ⟨h0, h1⟩
  simp [npPercentile, hq]

theorem npPercentile_empty_frame_witness :
    (0 : ℚ) ≤ 95 ∧ (95 : ℚ) ≤ 100 ∧ npPercentile [] 95 = .error .emptyFrame :=
  ⟨by norm_num, by norm_num,
    npPercentile_empty_frame 95 (by norm_num) (by norm_num)⟩

unseal Rat.add Rat.mul Rat.sub Rat.inv in
/-- C4 (confirmed): on the single frame whose samples are exactly the 100
distinct values `1, …, 100`, the percentile reduction at percentile `95`
returns the standard linear-interpolation order statistic: the virtual
rank is `95 * (100 - 1) / 100 = 94.05`, and interpolating between the
94th-index order statistic `95` and the 95th-index order statistic `96`
gives `95 + 0.05 * (96 - 95) = 95.05`. -/
theorem npPercentile_rank95 :
    npPercentile ((List.range 100).map (fun i => ((i : ℚ) + 1))) 95 =
      .ok (95 + (95 * (100 - 1) / 100 - 94) * (96 - 95)) := by
  decide

/-- C5 (confirmed): a batch result returned by `get_frame_values` has
exactly one entry per discovered file — its length equals the number of
files — and zero discovered files yield the empty result, not an error. -/
theorem get_frame_values_length (files : List VideoFile) (p : ℤ)
    (r : List VideoDict) (h : get_frame_values (.list files) p = .ok r) :
    r.length = files.length ∧ get_frame_values (.list []) p = .ok [] :=
  ⟨(videoLoop_ok files p r h).1, rfl⟩

unseal Rat.add Rat.mul Rat.sub Rat.inv in
theorem get_frame_values_length_witness :
    get_frame_values (.list [⟨"a.mp4", true, [[7]], false⟩]) 95 =
        .ok [⟨"a.mp4", [7], 95⟩] ∧
      ([⟨"a.mp4", [7], 95⟩] : List VideoDict).length =
        ([⟨"a.mp4", true, [[7]], false⟩] : List VideoFile).length ∧
      get_frame_values (.list []) 95 = .ok [] :=
  ⟨by decide,
    (get_frame_values_length [⟨"a.mp4", true, [[7]], false⟩] 95
      [⟨"a.mp4", [7], 95⟩] (by decide)).1,
    (get_frame_values_length [⟨"a.mp4", true, [[7]], false⟩] 95
      [⟨"a.mp4", [7], 95⟩] (by decide)).2⟩

/-- C6 (confirmed): in a successful batch result, entry `i` corresponds to
the `i`-th discovered file — it carries that file's name and the run's
percentile — and its `values` hold exactly one scalar per decoded frame,
indexed by frame position in decode order. -/
theorem get_frame_values_ordering (files : List VideoFile) (p : ℤ)
    (r : List VideoDict) (h : get_frame_values (.list files) p = .ok r)
    (i : ℕ) (entry : VideoDict) (hi : r.get? i = some entry) :
    ∃ f, files.get? i = some f ∧ entry.fname = f.fname ∧
      entry.percentile = p ∧ entry.values.length = f.frames.length ∧
      ∀ j v, entry.values.get? j = some v →
        ∃ frame, f.frames.get? j = some frame ∧
          npPercentile frame (p : ℚ) = .ok v := by
  obtain ⟨-, hget⟩ := videoLoop_ok files p r h
  obtain ⟨f, hf, hok⟩ := hget i entry hi
  obtain ⟨h1, h2, h3⟩ := processVideo_ok f p entry hok
  obtain ⟨h4, h5⟩ := frameLoop_ok f.frames p entry.values h3
  exact ⟨f, hf, h1, h2, h4, h5⟩

unseal Rat.add Rat.mul Rat.sub Rat.inv in
theorem get_frame_values_ordering_witness :
    get_frame_values (.list [⟨"a.mp4", true, [[1, 2], [3]], false⟩,
        ⟨"b.mp4", true, [[5]], false⟩]) 50 =
      .ok [⟨"a.mp4", [3/2, 3], 50⟩, ⟨"b.mp4", [5], 50⟩] ∧
    ([⟨"a.mp4", [3/2, 3], 50⟩, ⟨"b.mp4", [5], 50⟩] : List VideoDict).get? 1 =
      some ⟨"b.mp4", [5], 50⟩ ∧
    ∃ f, ([⟨"a.mp4", true, [[1, 2], [3]], false⟩,
        ⟨"b.mp4", true, [[5]], false⟩] : List VideoFile).get? 1 = some f ∧
      (⟨"b.mp4", [5], 50⟩ : VideoDict).fname = f.fname ∧
      (⟨"b.mp4", [5], 50⟩ : VideoDict).percentile = 50 ∧
      (⟨"b.mp4", [5], 50⟩ : VideoDict).values.length = f.frames.length ∧
      ∀ j v, (⟨"b.mp4", [5], 50⟩ : VideoDict).values.get? j = some v →
        ∃ frame, f.frames.get? j = some frame ∧
          npPercentile frame ((50 : ℤ) : ℚ) = .ok v :=
  ⟨by decide, by decide,
    get_frame_values_ordering
      [⟨"a.mp4", true, [[1, 2], [3]], false⟩, ⟨"b.mp4", true, [[5]], false⟩]
      50 [⟨"a.mp4", [3/2, 3], 50⟩, ⟨"b.mp4", [5], 50⟩] (by decide)
      1 ⟨"b.mp4", [5], 50⟩ (by decide)⟩

/-- C7 (confirmed): for every percentile `q ∈ [0, 100]` and every frame on
which the reduction succeeds (in particular every non-empty frame), the
returned scalar lies between the minimum and the maximum of the frame's
samples, inclusive. -/
theorem npPercentile_between_min_max (samples : List ℚ) (q : ℚ)
    (mn mx r : ℚ) (hq0 : 0 ≤ q) (hq1 : q ≤ 100)
    (hr : npPercentile samples q = .ok r)
    (hmn : samples.minimum = (mn : WithTop ℚ))
    (hmx : samples.maximum = (mx : WithBot ℚ)) :
    mn ≤ r ∧ r ≤ mx := by
  obtain ⟨a, ha, b, hb, har, hrb⟩ := npPercentile_mem_bounds samples q r hr
  exact ⟨le_trans (List.minimum_le_of_mem ha hmn) har,
    le_trans hrb (List.le_maximum_of_mem hb hmx)⟩

unseal Rat.add Rat.mul Rat.sub Rat.inv in
theorem npPercentile_between_min_max_witness :
    (0 : ℚ) ≤ 50 ∧ (50 : ℚ) ≤ 100 ∧
      npPercentile [1, 3, 2] 50 = .ok 2 ∧
      ([1, 3, 2] : List ℚ).minimum = ((1 : ℚ) : WithTop ℚ) ∧
      ([1, 3, 2] : List ℚ).maximum = ((3 : ℚ) : WithBot ℚ) ∧
      ((1 : ℚ) ≤ 2 ∧ (2 : ℚ) ≤ 3) :=
  ⟨by norm_num, by norm_num, by decide, by decide, by decide,
    npPercentile_between_min_max [1, 3, 2] 50 1 3 2 (by norm_num)
      (by norm_num) (by decide) (by decide) (by decide)⟩

/-- C8 (confirmed): for every finished series, the tabular sink writes the
file `{fname}_{percentile}.csv` containing one row `[v]` per value, in
series order, with no header row, and reading that file back (one value
per row) yields exactly the original `values` in the same order. -/
theorem write_csv_round_trip (d : VideoDict) :
    read_csv_values (write_csv d) = d.values ∧
      (write_csv d).rows = d.values.map (fun v => [v]) ∧
      (write_csv d).name = d.fname ++ "_" ++ toString d.percentile ++ ".csv" := by
  exact ⟨map_headD_map_singleton d.values, rfl, rfl⟩

/-- C9 (confirmed): file discovery is a pure function of the filesystem
snapshot: discovering the same unchanged directory a second time yields
the identical ordered file list (and count). -/
theorem identify_files_deterministic (fs fs' : FileSystem) (path : String)
    (h : fs = fs') :
    identify_files fs path = identify_files fs' path := by
  rw [h]

theorem identify_files_deterministic_witness :
    (⟨fun p => p == "/v", fun _ => ["b.mp4", "a.mp4", "c.txt"]⟩ : FileSystem) =
        ⟨fun p => p == "/v", fun _ => ["b.mp4", "a.mp4", "c.txt"]⟩ ∧
      identify_files
          ⟨fun p => p == "/v", fun _ => ["b.mp4", "a.mp4", "c.txt"]⟩ "/v" =
        identify_files
          ⟨fun p => p == "/v", fun _ => ["b.mp4", "a.mp4", "c.txt"]⟩ "/v" :=
  ⟨rfl,
    identify_files_deterministic
      ⟨fun p => p == "/v", fun _ => ["b.mp4", "a.mp4", "c.txt"]⟩
      ⟨fun p => p == "/v", fun _ => ["b.mp4", "a.mp4", "c.txt"]⟩ "/v" rfl⟩

/-- C10 (confirmed): `get_frame_values` accepts only an actual `list`: on
a tuple or generator argument the `assert type(video_files) == list` fails
immediately with `AssertionError`, whatever files the iterable holds — no
file is processed — while a `list` argument passes the assert and
proceeds to the per-file loop. -/
theorem get_frame_values_rejects_non_list (xs : List VideoFile) (p : ℤ) :
    get_frame_values (.tuple xs) p =
        .error (.assertionError "video_files is not a list") ∧
      get_frame_values (.generator xs) p =
        .error (.assertionError "video_files is not a list") ∧
      get_frame_values (.list xs) p = videoLoop xs p :=
  ⟨rfl, rfl, rfl⟩

end DetectLight
